import Mathlib

/-!
# Verification of the pandastim stimulus scheduler and transform engine

Shallow embedding of `stimuli.py` (pandastim repository).  The embedding
covers:

* the pure transform math (`trs_transform`, texture drift positions),
* the per-tick random-dot update in `ClosedLoopStimChoice.move_textures`,
* the stimulus-switch logic of `ClosedLoopStimChoice.set_stimulus`
  together with the busy-wait timing threads `stimulus_stationary`
  and `stimulus_max_duration`.

Times, velocities and angles handled by the discrete switching logic are
modelled as rationals; the geometric functions that call `cos`/`sin` are
modelled over the reals.
-/

namespace Pandastim

/-! ## TransformMath: the mask transform (`trs_transform`)

`panda3d.TransformState` values compose so that in `A.compose(B)` the
argument `B` is applied to a point first, then `A`.  We model a 2-D
transform directly as a function on points. -/

open Real

/-- `TransformState.make_pos2d d`: translation of a 2-D point by `d`. -/
def make_pos2d (d : ℝ × ℝ) (p : ℝ × ℝ) : ℝ × ℝ :=
  (p.1 + d.1, p.2 + d.2)

/-- `TransformState.make_scale2d k`: uniform scale of a 2-D point by `k`. -/
def make_scale2d (k : ℝ) (p : ℝ × ℝ) : ℝ × ℝ :=
  (k * p.1, k * p.2)

/-- `TransformState.make_rotate2d θ`: rotation of a 2-D point about the
origin by `θ` degrees. -/
noncomputable def make_rotate2d (θ : ℝ) (p : ℝ × ℝ) : ℝ × ℝ :=
  (Real.cos (θ * π / 180) * p.1 - Real.sin (θ * π / 180) * p.2,
   Real.sin (θ * π / 180) * p.1 + Real.cos (θ * π / 180) * p.2)

/-- `ClosedLoopStimChoice.trs_transform` (stimuli.py lines 1092-1114,
identical in `BinocularMoving.trs_transform`, lines 490-500):

    pos = 0.5 + center_x, 0.5 + center_y
    center_shift = make_pos2d((-pos[0], -pos[1]))
    scale = make_scale2d(1 / scale)
    rotate = make_rotate2d(strip_angle)
    translate = make_pos2d((0.5, 0.5))
    translate.compose(rotate.compose(scale.compose(center_shift)))

so on a point the source applies: center shift, then scale, then rotation,
then the final translation. -/
noncomputable def trs_transform (center_x center_y strip_angle scale : ℝ)
    (p : ℝ × ℝ) : ℝ × ℝ :=
  make_pos2d (0.5, 0.5)
    (make_rotate2d strip_angle
      (make_scale2d (1 / scale)
        (make_pos2d (-(0.5 + center_x), -(0.5 + center_y)) p)))

/-- Modelled from the spec's words (section 4.1 `mask_transform`): the
composition that applies, in order on a point, (1) the shift by
`(-0.5-center_x, -0.5-center_y)`, (2) the rotation by `strip_angle`,
(3) the uniform scale by `1/scale`, (4) the shift by `(0.5, 0.5)`.
Note rotation and scale appear in the opposite order to the source. -/
noncomputable def mask_transform_spec (center_x center_y strip_angle scale : ℝ)
    (p : ℝ × ℝ) : ℝ × ℝ :=
  make_pos2d (0.5, 0.5)
    (make_scale2d (1 / scale)
      (make_rotate2d strip_angle
        (make_pos2d (-(0.5 + center_x), -(0.5 + center_y)) p)))

/-- C7: for every center, strip angle and scale factor, the mask transform
built by `trs_transform` agrees on every point with the composition the
spec describes (shift, rotate, scale, re-center).  The source scales
before rotating, but the scale is uniform, so the two compositions are
equal as maps on points. -/
theorem trs_transform_eq_spec_composition
    (center_x center_y strip_angle scale : ℝ) (p : ℝ × ℝ) :
    trs_transform center_x center_y strip_angle scale p =
      mask_transform_spec center_x center_y strip_angle scale p := by
  unfold trs_transform mask_transform_spec
  unfold make_pos2d make_scale2d make_rotate2d
  refine Prod.ext ?_ ?_ <;> dsimp only <;> ring

/-- C8 counterexample: with center `(0, 0)` and `strip_angle = 0` the
transform returned by `trs_transform` is not the identity on positions:
with the caller-supplied scale constant `2` it moves the origin to
`(0.25, 0.25)`, because the `1/scale` factor still contracts every point
towards `(0.5, 0.5)` between the two (cancelling) translations. -/
theorem trs_transform_centered_not_identity :
    trs_transform 0 0 0 2 (0, 0) ≠ (0, 0) := by
  unfold trs_transform make_pos2d make_scale2d make_rotate2d
  simp only [zero_mul, zero_div, Real.cos_zero, Real.sin_zero]
  intro h
  have h1 := congrArg Prod.fst h
  norm_num at h1

/-- C8 amended: with center `(0, 0)` and `strip_angle = 0`,
`trs_transform` acts on every point as the uniform scaling by `1/scale`
about the fixed point `(0.5, 0.5)` — the two translations cancel, and the
map is the identity on positions exactly in the unscaled case
`scale = 1`. -/
theorem trs_transform_centered_is_scaling_about_center (scale : ℝ) (p : ℝ × ℝ) :
    trs_transform 0 0 0 scale p =
      (0.5 + (p.1 - 0.5) / scale, 0.5 + (p.2 - 0.5) / scale) ∧
    trs_transform 0 0 0 scale (0.5, 0.5) = (0.5, 0.5) ∧
    trs_transform 0 0 0 1 p = p := by
  unfold trs_transform make_pos2d make_scale2d make_rotate2d
  simp only [zero_mul, zero_div, Real.cos_zero, Real.sin_zero, one_mul]
  refine ⟨?_, ?_, ?_⟩ <;> refine Prod.ext ?_ ?_ <;>
    simp only [div_eq_mul_inv, one_mul] <;> ring

/-! ## Texture drift position

`TexMoving.moveTextureTask` (stimuli.py lines 94-97) and the `'s'` branch
of `ClosedLoopStimChoice.move_textures` (lines 809-818) set the texture
position each tick to `-task.time * velocity`. -/

/-- `TexMoving.moveTextureTask`: `new_position = -task.time * self.velocity`. -/
def moveTextureTask_position (time velocity : ℚ) : ℚ :=
  -time * velocity

/-- The `'s'` branch of `ClosedLoopStimChoice.move_textures`:
`new_position = -task.time * self.current_stimulus['velocity']`. -/
def move_textures_s_position (time velocity : ℚ) : ℚ :=
  -time * velocity

/-- C10: the per-tick drift offset is `-t * v`, in both the task of
`TexMoving` and the closed-loop frame task; consequently it is linear in
the elapsed time (`offset (2t) v = 2 * offset t v`) and vanishes at zero
velocity. -/
theorem drift_position_linear (t v : ℚ) :
    moveTextureTask_position t v = -t * v ∧
    move_textures_s_position t v = -t * v ∧
    moveTextureTask_position (2 * t) v = 2 * moveTextureTask_position t v ∧
    moveTextureTask_position t 0 = 0 := by
  unfold moveTextureTask_position move_textures_s_position
  refine ⟨rfl, rfl, by ring, by ring⟩

/-! ## Random-dot field update

The `'rdk'` branch of `ClosedLoopStimChoice.move_textures` (stimuli.py
lines 820-859) updates a field of 10,000 dots stored as
`dots_position[0, :, 0..2]` (x, y, brightness).  The three numpy random
draws of a tick (`np.random.randint(100, size=10000)`, `np.random.random(10000)`
and the two fresh-position draws) are modelled as index-oracles carried by
the tick record; `np.random.random` always returns values in `[0, 1)`. -/

/-- One dot record `(x, y, brightness)` of `dots_position`. -/
structure Dot where
  x : ℝ
  y : ℝ
  b : ℝ

/-- The per-tick inputs of the `'rdk'` branch of `move_textures`: the
stimulus parameters read from `current_stimulus`, the elapsed `dt`, and
the random draws of this tick as index-oracles. -/
structure DotTick where
  dt : ℝ
  angle : ℝ
  velocity : ℝ
  coherence : ℝ
  lifetime : ℝ
  brightness : ℝ
  rv : ℕ → ℕ
  k : ℕ → ℝ
  rx : ℕ → ℝ
  ry : ℕ → ℝ

/-- The coordinate wrap `(v + 1) % 2 - 1` of lines 856-857, with numpy's
floating `%` written out as `y - 2 * ⌊y / 2⌋` (the representative in
`[0, 2)`). -/
noncomputable def wrapCoord (v : ℝ) : ℝ :=
  (v + 1) - 2 * (⌊(v + 1) / 2⌋ : ℤ) - 1

/-- One dot's update in a `move_textures` tick, lines 832-857 in source
order: the coherent advance by `(cos, sin)(angle·π/180)·velocity·dt` when
this dot's `randint(100)` draw is below `coherence`; then the respawn to a
fresh uniform position `2·random - 1` when the dot is eligible (
`lifetime == 0` makes every dot eligible via `k >= 0`, otherwise
eligibility is `k < dt / lifetime`), overriding the coherent advance;
then the brightness channel is set to the stimulus brightness, and both
coordinates are wrapped. -/
noncomputable def updateDot (p : DotTick) (i : ℕ) (d : Dot) : Dot :=
  let moved : ℝ × ℝ :=
    if (p.rv i : ℝ) < p.coherence then
      (d.x + Real.cos (p.angle * π / 180) * p.velocity * p.dt,
       d.y + Real.sin (p.angle * π / 180) * p.velocity * p.dt)
    else
      (d.x, d.y)
  let posn : ℝ × ℝ :=
    if (if p.lifetime = 0 then 0 ≤ p.k i else p.k i < p.dt / p.lifetime) then
      (2 * p.rx i - 1, 2 * p.ry i - 1)
    else
      moved
  ⟨wrapCoord posn.1, wrapCoord posn.2, p.brightness⟩

/-- Elementwise update of the dot array, dot `i` consuming index `i` of
each random vector. -/
noncomputable def updateDots (p : DotTick) : ℕ → List Dot → List Dot
  | _, [] => []
  | i, d :: ds => updateDot p i d :: updateDots p (i + 1) ds

/-- One full `'rdk'` tick of `move_textures` on the dot field. -/
noncomputable def move_textures_rdk (p : DotTick) (field : List Dot) : List Dot :=
  updateDots p 0 field

/-- Successive `move_textures` ticks, first element of the list first. -/
noncomputable def runDotTicks (field : List Dot) : List DotTick → List Dot
  | [] => field
  | p :: ps => runDotTicks (move_textures_rdk p field) ps

lemma wrapCoord_mem (v : ℝ) : -1 ≤ wrapCoord v ∧ wrapCoord v < 1 := by
  have hfr : wrapCoord v = 2 * Int.fract ((v + 1) / 2) - 1 := by
    unfold wrapCoord Int.fract
    ring
  constructor
  · have h := Int.fract_nonneg ((v + 1) / 2)
    rw [hfr]; linarith
  · have h := Int.fract_lt_one ((v + 1) / 2)
    rw [hfr]; linarith

lemma updateDot_mem (p : DotTick) (i : ℕ) (d : Dot) :
    -1 ≤ (updateDot p i d).x ∧ (updateDot p i d).x ≤ 1 ∧
    -1 ≤ (updateDot p i d).y ∧ (updateDot p i d).y ≤ 1 ∧
    (updateDot p i d).b = p.brightness := by
  unfold updateDot
  dsimp only
  refine ⟨(wrapCoord_mem _).1, le_of_lt (wrapCoord_mem _).2,
    (wrapCoord_mem _).1, le_of_lt (wrapCoord_mem _).2, rfl⟩

lemma updateDots_length (p : DotTick) (i : ℕ) (ds : List Dot) :
    (updateDots p i ds).length = ds.length := by
  induction ds generalizing i with
  | nil => rfl
  | cons d ds ih => simp [updateDots, ih]

lemma updateDots_mem (p : DotTick) (i : ℕ) (ds : List Dot) :
    ∀ d ∈ updateDots p i ds,
      -1 ≤ d.x ∧ d.x ≤ 1 ∧ -1 ≤ d.y ∧ d.y ≤ 1 ∧ d.b = p.brightness := by
  induction ds generalizing i with
  | nil => intro d hd; cases hd
  | cons a ds ih =>
    intro d hd
    simp only [updateDots] at hd
    rcases List.mem_cons.mp hd with h | h
    · exact h ▸ updateDot_mem p i a
    · exact ih (i + 1) d h

lemma runDotTicks_length (ps : List DotTick) (field : List Dot) :
    (runDotTicks field ps).length = field.length := by
  induction ps generalizing field with
  | nil => rfl
  | cons p ps ih =>
    simp [runDotTicks, ih, move_textures_rdk, updateDots_length]

lemma runDotTicks_append_single (ps : List DotTick) (p : DotTick)
    (field : List Dot) :
    runDotTicks field (ps ++ [p]) = move_textures_rdk p (runDotTicks field ps) := by
  induction ps generalizing field with
  | nil => rfl
  | cons q ps ih => simp [runDotTicks, ih]

/-- C9: for a 10,000-dot field and any tick with `dt ≥ 0`,
`coherence ∈ [0, 100]`, `lifetime ≥ 0`, the `'rdk'` update of
`move_textures` keeps exactly 10,000 dots, leaves every wrapped coordinate
in `[-1, 1]` and sets every dot's brightness channel to the stimulus's
brightness; and the dot count and the post-tick bounds persist across any
number of successive ticks. -/
theorem update_random_dots_invariants (p : DotTick) (field : List Dot)
    (hlen : field.length = 10000) (hdt : 0 ≤ p.dt)
    (hcoh : 0 ≤ p.coherence ∧ p.coherence ≤ 100) (hlife : 0 ≤ p.lifetime) :
    (move_textures_rdk p field).length = 10000 ∧
    (∀ d ∈ move_textures_rdk p field,
      -1 ≤ d.x ∧ d.x ≤ 1 ∧ -1 ≤ d.y ∧ d.y ≤ 1 ∧ d.b = p.brightness) ∧
    (∀ ps : List DotTick, (runDotTicks field ps).length = 10000) ∧
    (∀ ps : List DotTick, ∀ d ∈ runDotTicks field (ps ++ [p]),
      -1 ≤ d.x ∧ d.x ≤ 1 ∧ -1 ≤ d.y ∧ d.y ≤ 1 ∧ d.b = p.brightness) := by
  refine ⟨?_, ?_, ?_, ?_⟩
  · rw [move_textures_rdk, updateDots_length, hlen]
  · exact updateDots_mem p 0 field
  · intro ps; rw [runDotTicks_length, hlen]
  · intro ps d hd
    rw [runDotTicks_append_single] at hd
    exact updateDots_mem p 0 _ d hd

/-- A concrete tick used to witness `update_random_dots_invariants`. -/
noncomputable def dotTickZero : DotTick :=
  ⟨1, 0, 0, 50, 0, 1, fun _ => 0, fun _ => 0, fun _ => 0, fun _ => 0⟩

/-- Witness for C9: the invariants hold at a concrete all-zero dot field
of length 10,000 and a concrete tick. -/
theorem update_random_dots_invariants_witness :
    (List.replicate 10000 (⟨0, 0, 0⟩ : Dot)).length = 10000 ∧
    (0 : ℝ) ≤ dotTickZero.dt ∧
    (0 ≤ dotTickZero.coherence ∧ dotTickZero.coherence ≤ 100) ∧
    (0 : ℝ) ≤ dotTickZero.lifetime ∧
    (∀ d ∈ move_textures_rdk dotTickZero (List.replicate 10000 ⟨0, 0, 0⟩),
      -1 ≤ d.x ∧ d.x ≤ 1 ∧ -1 ≤ d.y ∧ d.y ≤ 1 ∧ d.b = dotTickZero.brightness) :=
  ⟨List.length_replicate 10000 _, by norm_num [dotTickZero],
    by norm_num [dotTickZero], by norm_num [dotTickZero],
    (update_random_dots_invariants dotTickZero _ (List.length_replicate 10000 _)
      (by norm_num [dotTickZero]) (by norm_num [dotTickZero])
      (by norm_num [dotTickZero])).2.1⟩

/-! ## ClosedLoopStimChoice: stimulus switching and phase threads

`ClosedLoopStimChoice.set_stimulus` (stimuli.py lines 617-684) owns the
`current_stimulus` dict, the `curr_id` generation counter, the
`_stat_finish`/`_max_finish` flags its busy-wait phase threads poll, and
the `center_x`/`center_y`/`strip_angle` attributes.  Timing values are
modelled as rationals. -/

/-- Texture handles of the `textures` catalog passed to
`ClosedLoopStimChoice`: the guaranteed `textures['blank']` entry and the
frequency-indexed entries `textures['freq'][f]`. -/
inductive TextureHandle
  | blank
  | freqTex (f : ℕ)
  deriving DecidableEq, Repr

/-- A dict value that is either a scalar or a `(left, right)` pair, as
the `velocity`, `angle`, `stationary_time` and `stim_time` keys hold. -/
inductive TimeVal
  | scalar (q : ℚ)
  | pair (a b : ℚ)
  deriving DecidableEq, Repr

/-- Python's `value != 0` on such a value: a tuple always compares
unequal to `0`. -/
def TimeVal.neZero : TimeVal → Bool
  | .scalar q => q ≠ 0
  | .pair _ _ => true

/-- A `'texture'` value: a single handle for `'s'`, a pair for `'b'`. -/
inductive TexVal
  | single (t : TextureHandle)
  | pair (t0 t1 : TextureHandle)
  deriving DecidableEq, Repr

/-- The `'stim_type'` values `set_stimulus` ever installs: every branch
that assigns `current_stimulus` produces an `'s'` or a `'b'` dict. -/
inductive StimKind
  | s
  | b
  deriving DecidableEq, Repr

/-- The live `current_stimulus` dict: its `'stim_type'` and the keys the
phase threads and the frame task read, including the timing keys the dict
retains from the installing request. -/
structure CurrentStim where
  stim_type : StimKind
  velocity : TimeVal
  angle : TimeVal
  texture : TexVal
  center_width : Option ℕ
  stationary_time : Option TimeVal
  stim_time : Option TimeVal
  deriving DecidableEq, Repr

/-- The blank default dict
`{'stim_type': 's', 'velocity': 0, 'angle': 0, 'texture': textures['blank']}`. -/
def blankStim : CurrentStim :=
  ⟨.s, .scalar 0, .scalar 0, .single .blank, none, none, none⟩

/-- Catalog and defaults of an instance: the frequency keys that
`textures['freq']` contains and the constructor defaults `def_freq` and
`def_center_width`.  `def_freq` is taken to be a key of the catalog;
otherwise the fallback lookup itself would raise. -/
structure Config where
  freqKeys : List ℕ
  default_freq : ℕ
  default_center_width : ℕ
  deriving DecidableEq, Repr

/-- `textures['freq'][f]`: `some` handle exactly when the key exists. -/
def lookupFreq (cfg : Config) (f : ℕ) : Option TextureHandle :=
  if f ∈ cfg.freqKeys then some (.freqTex f) else none

/-- Texture resolution of the `'s'` branch (lines 631-634),
`try: textures['freq'][stimulus['freq']] except: textures['freq'][def_freq]`:
a missing `'freq'` key or a key absent from the catalog falls back to the
default frequency's texture. -/
def resolveFreqS (cfg : Config) (freq : Option ℕ) : TextureHandle :=
  match freq with
  | some f => (lookupFreq cfg f).getD (.freqTex cfg.default_freq)
  | none => .freqTex cfg.default_freq

/-- The `'freq'` value of a binocular request: an int or a pair. -/
inductive BinFreq
  | int (f : ℕ)
  | pair (f0 f1 : ℕ)
  deriving DecidableEq, Repr

/-- Whether a binocular `'freq'` value resolves against the catalog. -/
def BinFreq.resolvable (cfg : Config) : BinFreq → Prop
  | .int f => f ∈ cfg.freqKeys
  | .pair f0 f1 => f0 ∈ cfg.freqKeys ∧ f1 ∈ cfg.freqKeys

/-- Texture resolution of the `'b'` branch (lines 639-648): an int
frequency is used for both channels, a pair per channel; any failure — a
missing `'freq'` key, or either frequency absent from the catalog —
raises inside the `try` and both channels fall back to the default
frequency's texture. -/
def resolveFreqB (cfg : Config) (freq : Option BinFreq) :
    TextureHandle × TextureHandle :=
  let dflt : TextureHandle := .freqTex cfg.default_freq
  match freq with
  | some (.int f) =>
    match lookupFreq cfg f with
    | some t => (t, t)
    | none => (dflt, dflt)
  | some (.pair f0 f1) =>
    match lookupFreq cfg f0, lookupFreq cfg f1 with
    | some t0, some t1 => (t0, t1)
    | _, _ => (dflt, dflt)
  | none => (dflt, dflt)

/-- A whole-field (`'stim_type': 's'`) request dict. -/
structure FieldRequest where
  velocity : ℚ
  angle : ℚ
  freq : Option ℕ
  stationary_time : Option TimeVal
  stim_time : Option TimeVal
  deriving DecidableEq, Repr

/-- A binocular (`'stim_type': 'b'`) request dict with every key the
`'b'` branch of `set_stimulus` reads. -/
structure BinocRequest where
  velocity : ℚ × ℚ
  angle : ℚ × ℚ
  freq : Option BinFreq
  center_width : Option ℕ
  center_x : ℚ
  center_y : ℚ
  strip_angle : ℚ
  stationary_time : Option TimeVal
  stim_time : Option TimeVal
  deriving DecidableEq, Repr

/-- An incoming `set_stimulus` argument: `None`, a dict without a
`'stim_type'` key, `{'stim_type': 'blank'}`, a field or binocular dict,
or a dict whose `'stim_type'` matches no branch of the cascade (for
example `'rdk'`), possibly still carrying timing keys. -/
inductive Request
  | noneReq
  | noTypeKey
  | blankReq
  | fieldReq (r : FieldRequest)
  | binocReq (r : BinocRequest)
  | unrecognized (stationary_time stim_time : Option TimeVal)
  deriving DecidableEq, Repr

/-- One `save()` record (lines 686-692): the `curr_id` written with the
record and the velocity entry of the logged stimulus summary. -/
structure LogRecord where
  id : ℕ
  velocity : TimeVal
  deriving DecidableEq, Repr

/-- The mutable attributes of a `ClosedLoopStimChoice` instance touched
by the switching logic and the phase threads. -/
structure CLState where
  current : CurrentStim
  curr_id : ℕ
  stat_finish : Bool
  max_finish : Bool
  center_x : ℚ
  center_y : ℚ
  strip_angle : ℚ
  log : List LogRecord
  deriving DecidableEq, Repr

/-- `save()`: append a record carrying the current `curr_id` and the
current stimulus summary. -/
def saveRecord (st : CLState) : CLState :=
  {st with log := st.log ++ [⟨st.curr_id, st.current.velocity⟩]}

/-- The branch cascade of `set_stimulus` (lines 624-663) computing the
new `current_stimulus`: `None`, a dict without `'stim_type'`, and
`'stim_type': 'blank'` all install the blank field stimulus; `'s'` and
`'b'` dicts are installed with their `'freq'` reference resolved against
the catalog (and, for `'b'`, `'center_width'` defaulted when absent); a
`'stim_type'` matching no branch leaves `current_stimulus` unchanged. -/
def normalizeCurrent (cfg : Config) (old : CurrentStim) : Request → CurrentStim
  | .noneReq => blankStim
  | .noTypeKey => blankStim
  | .blankReq => blankStim
  | .fieldReq r =>
    ⟨.s, .scalar r.velocity, .scalar r.angle, .single (resolveFreqS cfg r.freq),
      none, r.stationary_time, r.stim_time⟩
  | .binocReq r =>
    let t := resolveFreqB cfg r.freq
    ⟨.b, .pair r.velocity.1 r.velocity.2, .pair r.angle.1 r.angle.2,
      .pair t.1 t.2, some (r.center_width.getD cfg.default_center_width),
      r.stationary_time, r.stim_time⟩
  | .unrecognized _ _ => old

/-- The `'b'` branch's update of `center_x`/`center_y` (line 653, Python
truthiness: `if stimulus['center_x'] or stimulus['center_y'] != 0`) and
of `strip_angle` (line 660); every other branch leaves these attributes
alone. -/
def updateCenters (st : CLState) : Request → CLState
  | .binocReq r =>
    { st with
      center_x := if r.center_x ≠ 0 ∨ r.center_y ≠ 0 then r.center_x else 0,
      center_y := if r.center_x ≠ 0 ∨ r.center_y ≠ 0 then r.center_y else 0,
      strip_angle := if r.strip_angle ≠ 0 then r.strip_angle else 0 }
  | _ => st

/-- Line 666: `stimulus is not None and 'stationary_time' in stimulus` —
whether `set_stimulus` starts a `stimulus_stationary` thread.  Presence
of the key alone starts the thread; its value is not consulted. -/
def startsStationaryThread : Request → Bool
  | .fieldReq r => r.stationary_time.isSome
  | .binocReq r => r.stationary_time.isSome
  | .unrecognized stat _ => stat.isSome
  | _ => false

/-- Lines 671-674: `stimulus is not None and 'stim_time' in stimulus and
stimulus['stim_time'] != 0` — whether `set_stimulus` starts a
`stimulus_max_duration` thread.  A pair compares unequal to `0`, so the
binocular value `(0, 0)` still starts the thread. -/
def startsMaxThread : Request → Bool
  | .fieldReq r => (r.stim_time.map TimeVal.neZero).getD false
  | .binocReq r => (r.stim_time.map TimeVal.neZero).getD false
  | .unrecognized _ mt => (mt.map TimeVal.neZero).getD false
  | _ => false

/-- One completed `set_stimulus(stimulus)` call (lines 617-684): the
`_stat_finish`/`_max_finish` flags are raised (breaking any old thread's
wait loop), the new `current_stimulus` is computed by the branch cascade,
fresh phase threads are started — lowering the corresponding flag —
according to the request's timing keys, `curr_id` is incremented, and a
`save()` record is written.  The card and texture-stage rebuilding does
not touch this state. -/
def set_stimulus (cfg : Config) (st : CLState) (req : Request) : CLState :=
  let st1 := {st with stat_finish := true, max_finish := true}
  let st2 := {st1 with current := normalizeCurrent cfg st1.current req}
  let st3 := updateCenters st2 req
  let st4 := {st3 with stat_finish := !startsStationaryThread req,
                       max_finish := !startsMaxThread req}
  let st5 := {st4 with curr_id := st4.curr_id + 1}
  saveRecord st5

/-- The instance state right before the `set_stimulus(None)` call of
`__init__` (lines 605-612): `curr_id = 0`, zeroed centers, no records.
The `current_stimulus` attribute does not exist yet and is never read on
the `None` path; the model seeds the field with the blank stimulus. -/
def initState : CLState :=
  ⟨blankStim, 0, true, true, 0, 0, 0, []⟩

/-- A sequence of switch requests delivered to `set_stimulus`. -/
def runRequests (cfg : Config) (st : CLState) : List Request → CLState
  | [] => st
  | r :: rs => runRequests cfg (set_stimulus cfg st r) rs

/-- The active stimulus records of an instance: the class stores the
active stimulus in the single `current_stimulus` attribute. -/
def activeStimuli (st : CLState) : List CurrentStim :=
  [st.current]

/-! ### The non-binocular `stimulus_stationary` routine (lines 743-759)

The routine runs on its own thread: it captures `prev_vel`, zeroes the
current velocity, saves, busy-waits on
`while time.time() - t_0 <= stationary_time: if self._stat_finish: break`,
and then — unconditionally, whether the hold expired or the flag was
raised by a switch — writes `prev_vel` back into `self.current_stimulus`
and saves again. -/

/-- Guard line 745: `if self.current_stimulus['stationary_time'] >= 0`
(the scalar branch of the routine). -/
def stationaryGuard (st : CLState) : Bool :=
  match st.current.stationary_time with
  | some (.scalar q) => 0 ≤ q
  | _ => false

/-- Entry of the routine (lines 746-749): capture `prev_vel`, write
velocity `0` into the current stimulus, `save()`.  Returns the new state
with the captured value. -/
def stationaryBegin (st : CLState) : CLState × TimeVal :=
  let prev := st.current.velocity
  (saveRecord {st with current := {st.current with velocity := .scalar 0}}, prev)

/-- Tail of the routine (lines 755-756), executed unconditionally once
the wait loop ends: write the captured `prev_vel` back into
`self.current_stimulus` — whatever stimulus that now is — and `save()`. -/
def stationaryEnd (prev : TimeVal) (st : CLState) : CLState :=
  saveRecord {st with current := {st.current with velocity := prev}}

lemma updateCenters_fixed (st : CLState) (req : Request) :
    (updateCenters st req).current = st.current ∧
    (updateCenters st req).curr_id = st.curr_id ∧
    (updateCenters st req).stat_finish = st.stat_finish ∧
    (updateCenters st req).max_finish = st.max_finish ∧
    (updateCenters st req).log = st.log := by
  cases req <;> simp [updateCenters]

lemma set_stimulus_curr_id (cfg : Config) (st : CLState) (req : Request) :
    (set_stimulus cfg st req).curr_id = st.curr_id + 1 := by
  unfold set_stimulus saveRecord
  have h := updateCenters_fixed
    {st with current := normalizeCurrent cfg st.current req,
             stat_finish := true, max_finish := true} req
  simp only [h.2.1]

lemma runRequests_curr_id (cfg : Config) (reqs : List Request) (st : CLState) :
    (runRequests cfg st reqs).curr_id = st.curr_id + reqs.length := by
  induction reqs generalizing st with
  | nil => rfl
  | cons r rs ih =>
    show (runRequests cfg (set_stimulus cfg st r) rs).curr_id = _
    rw [ih, set_stimulus_curr_id]
    simp only [List.length_cons]
    omega

/-- C2: every completed `set_stimulus` call increments `curr_id` by
exactly one — so over any finite sequence of switch requests the
generation counter after each call is strictly greater than before it,
and after the whole sequence it has grown by the sequence's length — and
after each call exactly one stimulus record is active. -/
theorem set_stimulus_generation (cfg : Config) (st : CLState) (req : Request)
    (reqs : List Request) :
    st.curr_id < (set_stimulus cfg st req).curr_id ∧
    (set_stimulus cfg st req).curr_id = st.curr_id + 1 ∧
    (runRequests cfg st reqs).curr_id = st.curr_id + reqs.length ∧
    (activeStimuli (set_stimulus cfg st req)).length = 1 := by
  refine ⟨?_, set_stimulus_curr_id cfg st req, runRequests_curr_id cfg reqs st, rfl⟩
  rw [set_stimulus_curr_id]
  omega

/-! ### C4: normalization on nil, unrecognized and unresolvable requests -/

/-- A concrete catalog: frequency keys 16 and 32, constructor defaults
`def_freq = 32` and `def_center_width = 16`. -/
def cfgEx : Config :=
  ⟨[16, 32], 32, 16⟩

/-- A concrete moving whole-field request,
`{'stim_type': 's', 'velocity': 5, 'angle': 0, 'freq': 32}`. -/
def movingFieldReq : Request :=
  .fieldReq ⟨5, 0, some 32, none, none⟩

/-- C4 counterexample: after a moving field stimulus is installed, a
request whose `'stim_type'` matches no branch of `set_stimulus` (such as
`'rdk'`) does not install the fully-blanked field stimulus — the branch
cascade has no default case, so the previous moving stimulus simply stays
installed. -/
theorem unrecognized_kind_not_blanked :
    (set_stimulus cfgEx (set_stimulus cfgEx initState movingFieldReq)
        (.unrecognized none none)).current ≠ blankStim ∧
    (set_stimulus cfgEx (set_stimulus cfgEx initState movingFieldReq)
        (.unrecognized none none)).current =
      ⟨.s, .scalar 5, .scalar 0, .single (.freqTex 32), none, none, none⟩ := by
  decide

/-- C4 amended: normalization fails closed for nil and for unresolvable
texture references — a `None` request, a dict without `'stim_type'`, and
a `'blank'` dict all install the fully-blanked field stimulus (velocity
0, angle 0, blank texture), and a missing or invalid `'freq'` reference
resolves to the catalog's default-frequency texture for that kind instead
of erroring — but a request with an unrecognized `'stim_type'` leaves the
previously installed stimulus unchanged rather than blanking. -/
theorem normalize_fails_closed_amended (cfg : Config) (old : CurrentStim) :
    normalizeCurrent cfg old .noneReq = blankStim ∧
    normalizeCurrent cfg old .noTypeKey = blankStim ∧
    normalizeCurrent cfg old .blankReq = blankStim ∧
    (∀ stat mt, normalizeCurrent cfg old (.unrecognized stat mt) = old) ∧
    (∀ r : FieldRequest, (∀ f, r.freq = some f → f ∉ cfg.freqKeys) →
      (normalizeCurrent cfg old (.fieldReq r)).texture =
        .single (.freqTex cfg.default_freq)) ∧
    (∀ r : BinocRequest, (∀ bf, r.freq = some bf → ¬ bf.resolvable cfg) →
      (normalizeCurrent cfg old (.binocReq r)).texture =
        .pair (.freqTex cfg.default_freq) (.freqTex cfg.default_freq)) := by
  refine ⟨rfl, rfl, rfl, fun _ _ => rfl, ?_, ?_⟩
  · intro r hr
    simp only [normalizeCurrent, resolveFreqS]
    match hf : r.freq with
    | none => rfl
    | some f =>
      have : f ∉ cfg.freqKeys := hr f hf
      simp [lookupFreq, this]
  · intro r hr
    simp only [normalizeCurrent, resolveFreqB]
    match hf : r.freq with
    | none => rfl
    | some (.int f) =>
      have : f ∉ cfg.freqKeys := hr (.int f) hf
      simp [lookupFreq, this]
    | some (.pair f0 f1) =>
      have : ¬ (f0 ∈ cfg.freqKeys ∧ f1 ∈ cfg.freqKeys) := hr (.pair f0 f1) hf
      by_cases h0 : f0 ∈ cfg.freqKeys
      · have h1 : f1 ∉ cfg.freqKeys := fun h1 => this ⟨h0, h1⟩
        simp [lookupFreq, h0, h1]
      · simp [lookupFreq, h0]

/-- Witness for C4's amended theorem: the fallbacks at the concrete
catalog — a `'freq'` of 7 is not a key, so both a field and a binocular
request resolve to the default-frequency texture, and nil requests
blank. -/
theorem normalize_fails_closed_amended_witness :
    normalizeCurrent cfgEx blankStim .noneReq = blankStim ∧
    (normalizeCurrent cfgEx blankStim
        (.fieldReq ⟨5, 0, some 7, none, none⟩)).texture =
      .single (.freqTex 32) ∧
    (normalizeCurrent cfgEx blankStim
        (.binocReq ⟨(1, 1), (0, 0), some (.int 7), none, 0, 0, 0, none, none⟩)).texture =
      .pair (.freqTex 32) (.freqTex 32) :=
  ⟨(normalize_fails_closed_amended cfgEx blankStim).1,
    (normalize_fails_closed_amended cfgEx blankStim).2.2.2.2.1
      ⟨5, 0, some 7, none, none⟩ (by intro f hf; cases hf; decide),
    (normalize_fails_closed_amended cfgEx blankStim).2.2.2.2.2
      ⟨(1, 1), (0, 0), some (.int 7), none, 0, 0, 0, none, none⟩
      (by intro bf hbf; cases hbf; simp only [BinFreq.resolvable]; decide)⟩

/-! ### C1: a stale stationary thread mutating the new stimulus -/

/-- The stationary-hold stimulus of the scenario:
`{'stim_type': 's', 'velocity': 5, 'angle': 0, 'freq': 32,
'stationary_time': 5, 'stim_time': 0}`. -/
def stationaryFieldReq : Request :=
  .fieldReq ⟨5, 0, some 32, some (.scalar 5), some (.scalar 0)⟩

/-- The stimulus installed by a switch arriving before the 5-second hold
expires: `{'stim_type': 's', 'velocity': 7, 'angle': 0, 'freq': 16}`. -/
def replacingFieldReq : Request :=
  .fieldReq ⟨7, 0, some 16, none, none⟩

/-- State after installing the stationary-hold stimulus. -/
def c1Installed : CLState :=
  set_stimulus cfgEx initState stationaryFieldReq

/-- The stationary thread has entered its routine: velocity zeroed,
`prev_vel = 5` captured, one record saved. -/
def c1Holding : CLState × TimeVal :=
  stationaryBegin c1Installed

/-- The switch arrives mid-hold: `set_stimulus` raises the old thread's
flag and installs the new stimulus under the next generation. -/
def c1Switched : CLState :=
  set_stimulus cfgEx c1Holding.1 replacingFieldReq

/-- The stale thread then observes `_stat_finish`, breaks out of its wait
loop, and unconditionally executes lines 755-756. -/
def c1AfterStale : CLState :=
  stationaryEnd c1Holding.2 c1Switched

/-- C1 is violated by the code: in the interleaving where a new stimulus
is installed while the previous stimulus's stationary thread is holding,
the stale thread's tail writes the old stimulus's captured velocity into
the newly installed stimulus — overwriting its velocity 7 with 5 — and
emits a logger record tagged with the new stimulus's generation.  The
guard check documents that the hold (5 seconds) was genuinely pending. -/
theorem stale_stationary_thread_mutates_new_stimulus :
    stationaryGuard c1Installed = true ∧
    c1Switched.current.velocity = .scalar 7 ∧
    c1AfterStale.current.velocity = .scalar 5 ∧
    c1AfterStale.current.velocity ≠ c1Switched.current.velocity ∧
    c1AfterStale.curr_id = c1Switched.curr_id ∧
    c1AfterStale.log = c1Switched.log ++ [⟨c1Switched.curr_id, .scalar 5⟩] := by
  decide

/-! ### C3: `stationary_time = 0` still runs the stationary phase -/

/-- `{'stim_type': 's', 'velocity': 5, 'angle': 0, 'freq': 32,
'stationary_time': 0}`: a stimulus whose stationary hold should not
apply. -/
def statZeroReq : Request :=
  .fieldReq ⟨5, 0, some 32, some (.scalar 0), none⟩

/-- State after installing the `stationary_time = 0` stimulus. -/
def c3Installed : CLState :=
  set_stimulus cfgEx initState statZeroReq

/-- C3 is violated by the code for the stationary half: with
`stationary_time` present and equal to 0, `set_stimulus` still starts a
stationary thread (the key-presence test at line 666 ignores the value),
the routine's guard `stationary_time >= 0` passes, and the routine zeroes
the effective velocity and emits a logger record before the hold
immediately expires.  (The `stim_time` half does hold: a scalar
`stim_time` of 0 or an absent key starts no max-duration thread.) -/
theorem stationary_time_zero_still_runs_phase :
    c3Installed.stat_finish = false ∧
    stationaryGuard c3Installed = true ∧
    (stationaryBegin c3Installed).1.current.velocity = .scalar 0 ∧
    (stationaryBegin c3Installed).1.log.length = c3Installed.log.length + 1 ∧
    startsMaxThread statZeroReq = false ∧
    startsMaxThread (.fieldReq ⟨5, 0, some 32, none, some (.scalar 0)⟩) = false ∧
    startsStationaryThread (.fieldReq ⟨5, 0, some 32, none, none⟩) = false := by
  decide

/-! ### C6: effective velocity across a stationary hold -/

/-- The effective scalar velocity of a field stimulus installed with
`stationary_time = T`, original velocity `v`, `stim_time = 0` and no
intervening switch, as a function of elapsed time since install: the
stationary routine zeroes it on entry, its wait loop
`while time.time() - t_0 <= stationary_time` keeps it zero through every
instant with elapsed ≤ T, and the routine's tail restores the captured
velocity at the first instant after the hold expires. -/
def velocityAt (T v t : ℚ) : ℚ :=
  if t ≤ T then 0 else v

/-- C6 counterexample: at the tick with elapsed time exactly `T = 2` the
wait-loop guard `elapsed <= stationary_time` still holds, so the
effective velocity read by the frame tick is still `0` — not the original
`1/10` that the claim requires at every tick with elapsed ≥ T. -/
theorem effective_velocity_still_zero_at_boundary :
    velocityAt 2 (1/10) 2 = 0 ∧ velocityAt 2 (1/10) 2 ≠ 1/10 := by
  constructor
  · rfl
  · intro h
    rw [velocityAt] at h
    norm_num at h

/-- C6 amended: for a field stimulus with `stationary_time = T > 0`,
`stim_time = 0` and no intervening switch, the effective velocity read by
the frame tick is `0` at every tick with elapsed ≤ T and equals the
original velocity at every tick with elapsed > T, indefinitely; the frame
task then drifts the texture by `-elapsed * velocity`; and the scalar
`stim_time` of 0 starts no max-duration thread, so the stimulus is never
auto-stopped. -/
theorem stationary_hold_velocity_amended (T v : ℚ) (hT : 0 < T) (t : ℚ) :
    (t ≤ T → velocityAt T v t = 0) ∧
    (T < t → velocityAt T v t = v) ∧
    move_textures_s_position t (velocityAt T v t) = -t * velocityAt T v t ∧
    startsMaxThread
      (.fieldReq ⟨v, 0, some 32, some (.scalar T), some (.scalar 0)⟩) = false := by
  refine ⟨fun h => ?_, fun h => ?_, rfl, rfl⟩
  · rw [velocityAt, if_pos h]
  · rw [velocityAt, if_neg (not_le.mpr h)]

/-- Witness for C6's amended theorem at `T = 2`, `v = 1/10`: a tick at
elapsed 1 reads velocity 0 and a tick at elapsed 3 reads 1/10. -/
theorem stationary_hold_velocity_amended_witness :
    (0 : ℚ) < 2 ∧
    ((1 : ℚ) ≤ 2 → velocityAt 2 (1/10) 1 = 0) ∧
    ((2 : ℚ) < 3 → velocityAt 2 (1/10) 3 = 1/10) :=
  ⟨by norm_num,
    (stationary_hold_velocity_amended 2 (1/10) (by norm_num) 1).1,
    (stationary_hold_velocity_amended 2 (1/10) (by norm_num) 3).2.1⟩

/-! ### C5: binocular per-channel auto-stop

The binocular branch of `stimulus_max_duration` (lines 709-741) unpacks
`stim_time = (t0, t1)`, marks a channel done up front when its time is 0,
and — when the Python condition `t0 or t1 > 0` holds — busy-waits,
blanking each channel the first time the observed elapsed time reaches
its stop time, until both are done.  This loop consults no cancellation
flag.  The loop is modelled over the sequence of elapsed-time values its
iterations observe. -/

/-- The loop state of the binocular branch: per-channel `a_done`/`b_done`
flags, `still_running`, whether each card is still attached, the current
texture pair of the stimulus, and the number of `save()` records the loop
has emitted. -/
structure BinocMaxState where
  aDone : Bool
  bDone : Bool
  running : Bool
  leftAttached : Bool
  rightAttached : Bool
  texture : TextureHandle × TextureHandle
  saves : ℕ
  deriving DecidableEq, Repr

/-- One iteration of the `while still_running` loop at observed elapsed
time `e` (lines 724-738): if `elapsed >= t0` and channel 0 is not yet
done, detach the left card, set `texture[0]` to blank, `save()` and mark
it done; likewise channel 1 against `t1`; then stop once both are done. -/
def binocMaxStep (t0 t1 e : ℚ) (s : BinocMaxState) : BinocMaxState :=
  if s.running = false then s
  else
    let s1 :=
      if t0 ≤ e ∧ s.aDone = false then
        {s with leftAttached := false, texture := (.blank, s.texture.2),
                saves := s.saves + 1, aDone := true}
      else s
    let s2 :=
      if t1 ≤ e ∧ s1.bDone = false then
        {s1 with rightAttached := false, texture := (s1.texture.1, .blank),
                 saves := s1.saves + 1, bDone := true}
      else s1
    if s2.aDone = true ∧ s2.bDone = true then {s2 with running := false} else s2

/-- The loop over the successive elapsed-time values it observes. -/
def binocMaxRun (t0 t1 : ℚ) (s : BinocMaxState) : List ℚ → BinocMaxState
  | [] => s
  | e :: es => binocMaxRun t0 t1 (binocMaxStep t0 t1 e s) es

/-- The binocular branch of `stimulus_max_duration` for a stimulus with
`stim_time = (t0, t1)` and texture pair `tex`: `a_done`/`b_done` start
set exactly for zero stop times (lines 713-720) and the loop runs only
under the Python guard `t0 or t1 > 0` (line 722). -/
def stimulus_max_duration_b (t0 t1 : ℚ) (tex : TextureHandle × TextureHandle)
    (es : List ℚ) : BinocMaxState :=
  let s0 : BinocMaxState :=
    ⟨decide (t0 = 0), decide (t1 = 0), true, true, true, tex, 0⟩
  if t0 ≠ 0 ∨ 0 < t1 then binocMaxRun t0 t1 s0 es else s0

/-- Invariant of the binocular stop loop started from a fresh stimulus
with both stop times pending: `still_running` mirrors the done flags, a
card is detached exactly when its channel is done, a done channel's
texture is blank, and each blanking saved one record. -/
def BinocInv (s : BinocMaxState) : Prop :=
  s.running = (!(s.aDone && s.bDone)) ∧
  s.leftAttached = (!s.aDone) ∧
  s.rightAttached = (!s.bDone) ∧
  (s.aDone = true → s.texture.1 = .blank) ∧
  (s.bDone = true → s.texture.2 = .blank) ∧
  s.saves = (if s.aDone then 1 else 0) + (if s.bDone then 1 else 0)

lemma binocMaxStep_spec (t0 t1 e : ℚ) (s : BinocMaxState) (hs : BinocInv s) :
    BinocInv (binocMaxStep t0 t1 e s) ∧
    (binocMaxStep t0 t1 e s).aDone = (s.aDone || decide (t0 ≤ e)) ∧
    (binocMaxStep t0 t1 e s).bDone = (s.bDone || decide (t1 ≤ e)) := by
  obtain ⟨a, b, run, la, ra, ⟨tl, tr⟩, sv⟩ := s
  obtain ⟨h1, h2, h3, h4, h5, h6⟩ := hs
  dsimp only at h1 h2 h3 h4 h5 h6
  subst h1 h2 h3 h6
  cases a <;> cases b <;>
    by_cases he0 : t0 ≤ e <;> by_cases he1 : t1 ≤ e <;>
      simp [binocMaxStep, BinocInv, he0, he1, h4, h5]

lemma binocMaxRun_spec (t0 t1 : ℚ) (es : List ℚ) (s : BinocMaxState)
    (hs : BinocInv s) :
    BinocInv (binocMaxRun t0 t1 s es) ∧
    (binocMaxRun t0 t1 s es).aDone
      = (s.aDone || es.any fun e => decide (t0 ≤ e)) ∧
    (binocMaxRun t0 t1 s es).bDone
      = (s.bDone || es.any fun e => decide (t1 ≤ e)) := by
  induction es generalizing s with
  | nil => exact ⟨hs, by simp [binocMaxRun], by simp [binocMaxRun]⟩
  | cons e es ih =>
    have hstep := binocMaxStep_spec t0 t1 e s hs
    have hrec := ih (binocMaxStep t0 t1 e s) hstep.1
    refine ⟨hrec.1, ?_, ?_⟩
    · show (binocMaxRun t0 t1 (binocMaxStep t0 t1 e s) es).aDone = _
      rw [hrec.2.1, hstep.2.1, List.any_cons, Bool.or_assoc]
    · show (binocMaxRun t0 t1 (binocMaxStep t0 t1 e s) es).bDone = _
      rw [hrec.2.2, hstep.2.2, List.any_cons, Bool.or_assoc]

/-- C5: for a binocular stimulus installed with per-channel stop times
`stim_time = (t0, t1)`, `0 < t0 < t1`, and no intervening switch (the
binocular loop consults no cancellation flag), over any sequence of
elapsed-time values the loop observes: the left channel is blanked — card
detached and `texture[0]` set to blank — exactly when some observed
elapsed time has reached `t0`, the right channel exactly when some
observed elapsed time has reached `t1`, a logger record is counted per
blanking, and the loop reaches the fully stopped state exactly when the
elapsed time has reached `t1` — hence never before `t1`. -/
theorem binocular_stim_time_blanks_per_channel (t0 t1 : ℚ)
    (tex : TextureHandle × TextureHandle) (es : List ℚ)
    (ht0 : 0 < t0) (ht01 : t0 < t1) :
    ((stimulus_max_duration_b t0 t1 tex es).leftAttached = false
      ↔ ∃ e ∈ es, t0 ≤ e) ∧
    ((stimulus_max_duration_b t0 t1 tex es).rightAttached = false
      ↔ ∃ e ∈ es, t1 ≤ e) ∧
    ((∃ e ∈ es, t0 ≤ e) →
      (stimulus_max_duration_b t0 t1 tex es).texture.1 = .blank) ∧
    ((∃ e ∈ es, t1 ≤ e) →
      (stimulus_max_duration_b t0 t1 tex es).texture.2 = .blank) ∧
    ((stimulus_max_duration_b t0 t1 tex es).running = false
      ↔ ∃ e ∈ es, t1 ≤ e) ∧
    (stimulus_max_duration_b t0 t1 tex es).saves =
      (if ∃ e ∈ es, t0 ≤ e then 1 else 0) +
        (if ∃ e ∈ es, t1 ≤ e then 1 else 0) := by
  have ht1 : 0 < t1 := ht0.trans ht01
  have himp : (∃ e ∈ es, t1 ≤ e) → (∃ e ∈ es, t0 ≤ e) := by
    rintro ⟨e, he, h⟩
    exact ⟨e, he, (ht01.le.trans h)⟩
  have hstart : stimulus_max_duration_b t0 t1 tex es =
      binocMaxRun t0 t1 ⟨false, false, true, true, true, tex, 0⟩ es := by
    unfold stimulus_max_duration_b
    rw [if_pos (Or.inl ht0.ne')]
    congr 1
    simp [ht0.ne', ht1.ne']
  rw [hstart]
  have hinv0 : BinocInv ⟨false, false, true, true, true, tex, 0⟩ := by
    refine ⟨rfl, rfl, rfl, by simp, by simp, rfl⟩
  obtain ⟨⟨hr1, hr2, hr3, hr4, hr5, hr6⟩, hA, hB⟩ :=
    binocMaxRun_spec t0 t1 es ⟨false, false, true, true, true, tex, 0⟩ hinv0
  rw [Bool.false_or] at hA hB
  have hAiff :
      (binocMaxRun t0 t1 ⟨false, false, true, true, true, tex, 0⟩ es).aDone =
        true ↔ ∃ e ∈ es, t0 ≤ e := by
    rw [hA, List.any_eq_true]
    simp
  have hBiff :
      (binocMaxRun t0 t1 ⟨false, false, true, true, true, tex, 0⟩ es).bDone =
        true ↔ ∃ e ∈ es, t1 ≤ e := by
    rw [hB, List.any_eq_true]
    simp
  refine ⟨?_, ?_, ?_, ?_, ?_, ?_⟩
  · rw [hr2, Bool.not_eq_false']
    exact hAiff
  · rw [hr3, Bool.not_eq_false']
    exact hBiff
  · intro h
    exact hr4 (hAiff.mpr h)
  · intro h
    exact hr5 (hBiff.mpr h)
  · rw [hr1, Bool.not_eq_false', Bool.and_eq_true]
    constructor
    · intro h
      exact hBiff.mp h.2
    · intro h
      exact ⟨hAiff.mpr (himp h), hBiff.mpr h⟩
  · rw [hr6]
    by_cases h0 : ∃ e ∈ es, t0 ≤ e <;> by_cases h1 : ∃ e ∈ es, t1 ≤ e
    · rw [if_pos h0, if_pos h1, if_pos (hAiff.mpr h0), if_pos (hBiff.mpr h1)]
    · rw [if_pos h0, if_neg h1, if_pos (hAiff.mpr h0),
        if_neg (fun hb => h1 (hBiff.mp hb))]
    · exact absurd (himp h1) h0
    · rw [if_neg h0, if_neg h1, if_neg (fun ha => h0 (hAiff.mp ha)),
        if_neg (fun hb => h1 (hBiff.mp hb))]

/-- Witness for C5 at `stim_time = (1, 3)` and elapsed samples
`[1/2, 1, 2, 3]`: both channels end blanked and the loop ends stopped. -/
theorem binocular_stim_time_blanks_per_channel_witness :
    (0 : ℚ) < 1 ∧ (1 : ℚ) < 3 ∧
    ((stimulus_max_duration_b 1 3 (.freqTex 32, .freqTex 16)
        [1/2, 1, 2, 3]).running = false ↔
      ∃ e ∈ [(1 : ℚ)/2, 1, 2, 3], (3 : ℚ) ≤ e) :=
  ⟨by norm_num, by norm_num,
    (binocular_stim_time_blanks_per_channel 1 3 (.freqTex 32, .freqTex 16)
      [1/2, 1, 2, 3] (by norm_num) (by norm_num)).2.2.2.2.1⟩

end Pandastim
